import Mathlib

/-!
# Chat client: transcript synchronisation

A shallow embedding of the message synchronisation logic of
`giao-dien/src/components/Chat.jsx` and of the reconnect handler of
`giao-dien/src/components/TeacherDashboard.jsx`.

JavaScript strings are modelled as lists of characters. Every string operation
used by the source (`replace` with a string pattern, `split` on the blank-line
delimiter, `startsWith`, `slice`, `trim`) is given as a function on such lists.
The markdown renderer `marked.parse` is a library outside the repository and is
taken as a parameter `marked`.
-/

namespace Chat

/-- A JavaScript string, as the list of its characters. -/
abbrev Str := List Char

/-! ## Data model -/

/-- One message object: a row of the history store, a parsed push payload, or an
entry of the `messages` state. `type` is only present on push payloads,
`rendered` only on entries the component has built. -/
structure Message where
  session_id : Str
  role : Str
  content : Str
  timestamp : Str
  rendered : Option Str := none
  type : Option Str := none
deriving DecidableEq, Repr

/-- The test `msg.timestamp === data.timestamp && msg.content === data.content`
used by all three deduplication sites. -/
def sameIdentity (msg data : Message) : Bool :=
  decide (msg.timestamp = data.timestamp) && decide (msg.content = data.content)

/-! ## String operations -/

/-- `s.replace(pat, rep)` with a string pattern: only the first occurrence of
`pat` is replaced. -/
def replace (pat rep : Str) : Str → Str
  | [] => if pat = [] then rep else []
  | c :: t =>
    if pat.isPrefixOf (c :: t) then rep ++ (c :: t).drop pat.length
    else c :: replace pat rep t

/-- The literal line-break marker `<br>`. -/
def brMarker : Str := ['<', 'b', 'r', '>']

/-- `content.replace('<br>', '\n')`. -/
def replaceBr (content : Str) : Str := replace brMarker ['\n'] content

/-! ## Live push handler and optimistic admit -/

/-- The entry built by `ws.current.onmessage` from a payload `data`. -/
def pushEntry (marked : Str → Str) (currentSession : Str) (data : Message) : Message :=
  { data with
    session_id := currentSession
    content := replaceBr data.content
    rendered := some (marked data.content) }

/-- The handler `ws.current.onmessage` of `Chat`, as a function of the session
`currentSession` captured by the closure, the transcript `prev` and the parsed
payload `data`; the result is the new transcript. -/
def onmessage (marked : Str → Str) (currentSession : Str) (prev : List Message)
    (data : Message) : List Message :=
  if data.type = some "ping".toList then prev
  else if data.session_id ≠ currentSession then prev
  else if data.role = "user".toList ∨ data.role = "teacher".toList then
    if prev.any (fun msg => sameIdentity msg data) then prev
    else prev ++ [pushEntry marked currentSession data]
  else prev

/-- The state update of `handleSend` that admits the message just sent
(learner role): appended unless an entry with the same identity exists. -/
def optimisticAdmit (marked : Str → Str) (prev : List Message) (message : Message) :
    List Message :=
  if prev.any (fun msg => sameIdentity msg message) then prev
  else prev ++ [{ message with rendered := some (marked message.content) }]

/-! ## Bulk merge -/

/-- The scan of `Array.prototype.findIndex` from position `i` on. -/
def findIndexFrom {α : Type} (p : α → Bool) : List α → Nat → Int
  | [], _ => -1
  | x :: xs, i => if p x then (i : Int) else findIndexFrom p xs (i + 1)

/-- `Array.prototype.findIndex`: the index of the first element satisfying `p`,
or `-1`. -/
def findIndex {α : Type} (p : α → Bool) (self : List α) : Int :=
  findIndexFrom p self 0

/-- The filter `res.data.filter((msg, index, self) => index === self.findIndex(...))`. -/
def uniqueMessages (data : List Message) : List Message :=
  (data.enum.filter (fun im =>
    decide ((im.1 : Int) = findIndex (fun m => sameIdentity m im.2) data))).map Prod.snd

/-- The per-row map applied to the filtered snapshot before it replaces the
transcript. -/
def displayRow (marked : Str → Str) (msg : Message) : Message :=
  { msg with content := replaceBr msg.content, rendered := some (marked msg.content) }

/-- The transcript set after a bulk fetch of `data`. -/
def mergeBulk (marked : Str → Str) (data : List Message) : List Message :=
  (uniqueMessages data).map (displayRow marked)

/-- The first occurrences of a snapshot, in the words of the specification: a
message is kept exactly when no message before it (`earlier`) has the same
(timestamp, content) pair, and the kept messages stay in their order. -/
def firstOccurrences (earlier : List Message) : List Message → List Message
  | [] => []
  | m :: rest =>
    if earlier.any (fun e => sameIdentity e m) then firstOccurrences (earlier ++ [m]) rest
    else m :: firstOccurrences (earlier ++ [m]) rest

/-! ## Unconditional appends -/

/-- The entry appended by `handleSend` once the stream has ended. -/
def assistantEntry (marked : Str → Str) (currentSession aiResponse aiTimestamp : Str) :
    Message :=
  { session_id := currentSession
    role := "assistant".toList
    content := aiResponse
    rendered := some (marked aiResponse)
    timestamp := aiTimestamp }

/-- The text of the apology appended by the `catch` block of `handleSend`. -/
def sendFailureText : Str :=
  "Lỗi: Không thể nhận phản hồi từ AI. Vui lòng thử lại sau. 😔".toList

/-- The text of the system message appended by `onclose` once the reconnect
attempts are used up. -/
def connectionLostText : Str :=
  "Không thể kết nối với server. Vui lòng thử lại sau. 😔".toList

/-- The apology entry of the `catch` block of `handleSend`; `now` is the clock
reading `new Date().toISOString()`. -/
def sendFailureEntry (marked : Str → Str) (currentSession now : Str) : Message :=
  assistantEntry marked currentSession sendFailureText now

/-- The system entry appended by `onclose` at the reconnect ceiling. -/
def connectionLostEntry (marked : Str → Str) (currentSession now : Str) : Message :=
  assistantEntry marked currentSession connectionLostText now

/-! ## Reachable transcripts -/

/-- No two entries of the transcript have the same (timestamp, content) pair. -/
def NoDuplicateIdentity (t : List Message) : Prop :=
  t.Pairwise (fun a b => sameIdentity a b = false)

/-- The transcripts reachable from the empty one by the five kinds of update the
component performs on `messages`. -/
inductive Reachable (marked : Str → Str) : List Message → Prop
  | empty : Reachable marked []
  | bulkMerge (t data : List Message) :
      Reachable marked t → Reachable marked (mergeBulk marked data)
  | livePush (t : List Message) (currentSession : Str) (data : Message) :
      Reachable marked t → Reachable marked (onmessage marked currentSession t data)
  | optimistic (t : List Message) (message : Message) :
      Reachable marked t → Reachable marked (optimisticAdmit marked t message)
  | assistantCommit (t : List Message) (currentSession aiResponse aiTimestamp : Str) :
      Reachable marked t →
      Reachable marked (t ++ [assistantEntry marked currentSession aiResponse aiTimestamp])
  | sendFailure (t : List Message) (currentSession now : Str) :
      Reachable marked t → Reachable marked (t ++ [sendFailureEntry marked currentSession now])
  | connectionLost (t : List Message) (currentSession now : Str) :
      Reachable marked t →
      Reachable marked (t ++ [connectionLostEntry marked currentSession now])

/-- The reachable transcripts when every merged or pushed content is free of the
`<br>` marker and every unconditional append carries an identity that the
transcript does not hold yet. -/
inductive ReachableFresh (marked : Str → Str) : List Message → Prop
  | empty : ReachableFresh marked []
  | bulkMerge (t data : List Message) :
      ReachableFresh marked t → (∀ m ∈ data, ¬ brMarker <:+: m.content) →
      ReachableFresh marked (mergeBulk marked data)
  | livePush (t : List Message) (currentSession : Str) (data : Message) :
      ReachableFresh marked t → ¬ brMarker <:+: data.content →
      ReachableFresh marked (onmessage marked currentSession t data)
  | optimistic (t : List Message) (message : Message) :
      ReachableFresh marked t → ReachableFresh marked (optimisticAdmit marked t message)
  | assistantCommit (t : List Message) (currentSession aiResponse aiTimestamp : Str) :
      ReachableFresh marked t →
      (∀ e ∈ t, sameIdentity e
        (assistantEntry marked currentSession aiResponse aiTimestamp) = false) →
      ReachableFresh marked (t ++ [assistantEntry marked currentSession aiResponse aiTimestamp])
  | sendFailure (t : List Message) (currentSession now : Str) :
      ReachableFresh marked t →
      (∀ e ∈ t, sameIdentity e (sendFailureEntry marked currentSession now) = false) →
      ReachableFresh marked (t ++ [sendFailureEntry marked currentSession now])
  | connectionLost (t : List Message) (currentSession now : Str) :
      ReachableFresh marked t →
      (∀ e ∈ t, sameIdentity e (connectionLostEntry marked currentSession now) = false) →
      ReachableFresh marked (t ++ [connectionLostEntry marked currentSession now])

/-! ## Stream read loop of `handleSend` -/

/-- The characters removed by `String.prototype.trim`: the ECMAScript
WhiteSpace and LineTerminator code points. -/
def isTrimChar (c : Char) : Bool :=
  decide (c.toNat ∈ [0x09, 0x0A, 0x0B, 0x0C, 0x0D, 0x20, 0xA0, 0x1680, 0x2028, 0x2029,
    0x202F, 0x205F, 0x3000, 0xFEFF]) || (decide (0x2000 ≤ c.toNat) && decide (c.toNat ≤ 0x200A))

/-- `s.trim()`. -/
def trim (s : Str) : Str :=
  ((s.dropWhile isTrimChar).reverse.dropWhile isTrimChar).reverse

/-- Puts `c` in front of the first piece of a split. -/
def pushFront (c : Char) : List Str → List Str
  | [] => [[c]]
  | h :: t => (c :: h) :: t

/-- `chunk.split('\n\n')`: the pieces between the non-overlapping occurrences of
two newline characters, found from left to right. -/
def split : Str → List Str
  | [] => [[]]
  | [c] => [[c]]
  | c :: d :: rest =>
    if c = '\n' ∧ d = '\n' then [] :: split rest
    else pushFront c (split (d :: rest))

/-- The marker `'data: '` that a frame must start with. -/
def dataMarker : Str := "data: ".toList

/-- The completion sentinel `'[DONE]'`. -/
def doneSentinel : Str := "[DONE]".toList

/-- The language-tag sentinel `'SOURCE_LANG'`. -/
def sourceLangTag : Str := "SOURCE_LANG".toList

/-- The test `!data || data === '[DONE]' || data.startsWith('SOURCE_LANG')` under
which the frame loop skips a payload. -/
def skipped (data : Str) : Bool :=
  decide (data = []) || decide (data = doneSentinel) || sourceLangTag.isPrefixOf data

/-- One pass of the body of `for (const line of lines)`: the new value of
`aiResponse`. -/
def appendFrame (aiResponse line : Str) : Str :=
  if dataMarker.isPrefixOf line then
    let data := trim (line.drop 6)
    if skipped data then aiResponse else aiResponse ++ data
  else aiResponse

/-- One pass of the `while` loop for a decoded chunk. -/
def readChunk (aiResponse chunk : Str) : Str :=
  (split chunk).foldl appendFrame aiResponse

/-- The value of `aiResponse` when the reader reports `done` after the chunks
`chunks`. -/
def readLoop (chunks : List Str) : Str :=
  chunks.foldl readChunk []

/-- The content of the assistant message: `aiResponse.trim()`. -/
def assembledContent (chunks : List Str) : Str :=
  trim (readLoop chunks)

/-- The frames of a chunk sequence: the pieces of every chunk that start with the
data marker, in arrival order. -/
def dataFrames (chunks : List Str) : List Str :=
  (chunks.flatMap split).filter (fun line => dataMarker.isPrefixOf line)

/-- The payload fragments that count, in the words of the amended claim: the
text after the marker of every frame, stripped of its own leading and trailing
whitespace, unless that text is empty, the completion sentinel, or starts with
the language tag. -/
def keptPayloads (chunks : List Str) : List Str :=
  ((dataFrames chunks).map (fun line => trim (line.drop 6))).filter
    (fun data => !skipped data)

/-- The three chunks of the sentinel scenario of the specification. -/
def helloWorldChunks : List Str :=
  ["data: Hello\n\n".toList, "data:  world\n\n".toList, "data: [DONE]\n\n".toList]

/-! ## Channel session of `Chat`

The component state that the push channel touches, as an explicit state with
one transition per callback. A socket or a timer remembers the `currentSession`
of the render whose closure created it (`boundSession`); the refs `ws`,
`reconnectAttempts` and `sessionRef` and the `messages` state are shared by all
closures. -/

/-- `WebSocket.readyState`. -/
inductive ReadyState
  | CONNECTING
  | OPEN
  | CLOSING
  | CLOSED
deriving DecidableEq, Repr

/-- A `WebSocket` created by `connectWebSocket`. -/
structure Socket where
  boundSession : Str
  readyState : ReadyState
deriving DecidableEq, Repr

/-- A timer set by `onclose` to reconnect; `pending` until it fires. -/
structure ReconnectTimer where
  boundSession : Str
  delay : Nat
  pending : Bool
deriving DecidableEq, Repr

/-- The props, state and refs of `Chat` that the channel session reads or writes,
with the sockets, timers and history requests it has created. An unset
`currentSession` or `token` is the empty string. -/
structure ChatState where
  mode : Str
  token : Str
  currentSession : Str
  messages : List Message
  isLoading : Bool
  ws : Option Nat
  reconnectAttempts : Nat
  sessionRef : Str
  sockets : List Socket
  reconnectTimers : List ReconnectTimer
  debounce : Option Str
  hasCleanup : Bool
  fetches : List (Str × Bool)
  navigated : List Str
deriving DecidableEq, Repr

/-- The constant `maxReconnectAttempts`. -/
def maxReconnectAttempts : Nat := 5

/-- The mode string of the learner role. -/
def studentMode : Str := "Học sinh".toList

/-- The state of a freshly mounted `Chat` with no conversation selected. -/
def mounted (mode token : Str) : ChatState :=
  { mode := mode, token := token, currentSession := [], messages := [], isLoading := false,
    ws := none, reconnectAttempts := 0, sessionRef := [], sockets := [],
    reconnectTimers := [], debounce := none, hasCleanup := false, fetches := [],
    navigated := [] }

/-- The test `ws.current && ws.current.readyState === WebSocket.OPEN`. -/
def wsIsOpen (st : ChatState) : Bool :=
  match st.ws with
  | none => false
  | some i =>
    match st.sockets[i]? with
    | some sock => decide (sock.readyState = ReadyState.OPEN)
    | none => false

/-- Sets the ready state of socket `i`. -/
def setReadyState (i : Nat) (r : ReadyState) (st : ChatState) : ChatState :=
  match st.sockets[i]? with
  | some sock => { st with sockets := st.sockets.set i { sock with readyState := r } }
  | none => st

/-- The call `ws.current.close()`: a socket that is connecting or open starts
closing; its close event comes later. -/
def closeCurrent (st : ChatState) : ChatState :=
  match st.ws with
  | none => st
  | some i =>
    match st.sockets[i]? with
    | some sock =>
      if sock.readyState = ReadyState.CONNECTING ∨ sock.readyState = ReadyState.OPEN then
        setReadyState i ReadyState.CLOSING st
      else st
    | none => st

/-- The function `connectWebSocket` of the render whose `currentSession` is
`boundSession`. -/
def connectWebSocket (boundSession : Str) (st : ChatState) : ChatState :=
  if boundSession = [] ∨ st.token = [] then st
  else if wsIsOpen st then st
  else
    { st with
      sockets := st.sockets ++ [{ boundSession := boundSession,
                                  readyState := ReadyState.CONNECTING }]
      ws := some st.sockets.length }

/-- The handler `ws.current.onopen`. -/
def onopen (st : ChatState) : ChatState :=
  { st with reconnectAttempts := 0 }

/-- The handler `ws.current.onclose` installed by the closure bound to
`boundSession`, for a close event with code `code` at clock reading `now`. -/
def onclose (marked : Str → Str) (boundSession : Str) (code : Nat) (now : Str)
    (st : ChatState) : ChatState :=
  if code = 1008 then { st with navigated := st.navigated ++ ["/login".toList] }
  else if st.reconnectAttempts < maxReconnectAttempts then
    { st with
      reconnectTimers := st.reconnectTimers ++
        [{ boundSession := boundSession, delay := 1000 * (st.reconnectAttempts + 1),
           pending := true }] }
  else
    { st with messages := st.messages ++ [connectionLostEntry marked boundSession now] }

/-- The callback of the reconnect timer. -/
def reconnectCallback (boundSession : Str) (st : ChatState) : ChatState :=
  connectWebSocket boundSession { st with reconnectAttempts := st.reconnectAttempts + 1 }

/-- The handler `ws.current.onerror`. -/
def onerror (st : ChatState) : ChatState :=
  closeCurrent st

/-- The cleanup function returned by the conversation effect. -/
def effectCleanup (st : ChatState) : ChatState :=
  let st1 := { st with debounce := none }
  if wsIsOpen st1 then closeCurrent st1 else st1

/-- The body of the conversation effect, up to the start of the 500 ms timer. -/
def conversationEffect (st : ChatState) : ChatState :=
  if st.currentSession = [] ∧ st.mode = studentMode then
    { st with messages := [], isLoading := false, hasCleanup := false }
  else if st.currentSession ≠ [] ∧ st.token ≠ [] then
    let st1 :=
      if st.sessionRef ≠ st.currentSession then
        let st0 := if wsIsOpen st then closeCurrent st else st
        { st0 with sessionRef := st.currentSession, reconnectAttempts := 0 }
      else st
    { st1 with isLoading := true, debounce := some st.currentSession, hasCleanup := true }
  else { st with hasCleanup := false }

/-- The callback of the 500 ms timer: connect, and request the history. -/
def debounceCallback (boundSession : Str) (st : ChatState) : ChatState :=
  let st1 := connectWebSocket boundSession { st with debounce := none }
  { st1 with fetches := st1.fetches ++ [(boundSession, true)] }

/-- What can happen to a mounted `Chat`: the parent selects a conversation, a
timer fires, a history request resolves, or a socket reports an event. -/
inductive Event
  | selectSession (session : Str)
  | debounceFires
  | historyArrives (k : Nat) (data : List Message)
  | socketOpens (i : Nat)
  | socketMessage (i : Nat) (data : Message)
  | socketError (i : Nat)
  | socketCloses (i : Nat) (code : Nat) (now : Str)
  | reconnectFires (k : Nat)
deriving DecidableEq, Repr

/-- The events of the channel session itself: socket events and reconnect
timers. -/
def Event.isSessionEvent : Event → Bool
  | Event.socketOpens _ => true
  | Event.socketMessage _ _ => true
  | Event.socketError _ => true
  | Event.socketCloses _ _ _ => true
  | Event.reconnectFires _ => true
  | _ => false

/-- One transition. The result is `none` when the event cannot occur in the
state: a timer fires once, a socket opens only while connecting, delivers
messages only while open, and reports no close after it is closed. -/
def step (marked : Str → Str) (st : ChatState) : Event → Option ChatState
  | Event.selectSession session =>
    if session = st.currentSession then none
    else
      let st1 := if st.hasCleanup then effectCleanup st else st
      some (conversationEffect { st1 with currentSession := session })
  | Event.debounceFires =>
    match st.debounce with
    | some boundSession => some (debounceCallback boundSession st)
    | none => none
  | Event.historyArrives k data =>
    match st.fetches[k]? with
    | some (boundSession, true) =>
      some { st with
        fetches := st.fetches.set k (boundSession, false)
        messages := mergeBulk marked data
        isLoading := false }
    | _ => none
  | Event.socketOpens i =>
    match st.sockets[i]? with
    | some sock =>
      if sock.readyState = ReadyState.CONNECTING then
        some (onopen (setReadyState i ReadyState.OPEN st))
      else none
    | none => none
  | Event.socketMessage i data =>
    match st.sockets[i]? with
    | some sock =>
      if sock.readyState = ReadyState.OPEN then
        some { st with messages := onmessage marked sock.boundSession st.messages data }
      else none
    | none => none
  | Event.socketError i =>
    match st.sockets[i]? with
    | some _ => some (onerror st)
    | none => none
  | Event.socketCloses i code now =>
    match st.sockets[i]? with
    | some sock =>
      if sock.readyState = ReadyState.CLOSED then none
      else some (onclose marked sock.boundSession code now (setReadyState i ReadyState.CLOSED st))
    | none => none
  | Event.reconnectFires k =>
    match st.reconnectTimers[k]? with
    | some timer =>
      if timer.pending then
        some (reconnectCallback timer.boundSession
          { st with reconnectTimers := st.reconnectTimers.set k { timer with pending := false } })
      else none
    | none => none

/-- The state after a sequence of events, when each can occur in turn. -/
def run (marked : Str → Str) : ChatState → List Event → Option ChatState
  | st, [] => some st
  | st, e :: es =>
    match step marked st e with
    | some st1 => run marked st1 es
    | none => none

/-- The state of a `Chat` that shows conversation `session` with transcript
`transcript`, when its 500 ms timer has just fired and no socket exists yet. -/
def selected (mode token session : Str) (transcript : List Message) : ChatState :=
  { mounted mode token with
    currentSession := session, sessionRef := session, messages := transcript,
    isLoading := true, hasCleanup := true }

/-- The state right after the first call of `connectWebSocket` for `session`,
with transcript `transcript` and attempt counter 0. -/
def sessionStarted (mode token session : Str) (transcript : List Message) : ChatState :=
  connectWebSocket session (selected mode token session transcript)

/-- The events of one failed connection attempt `k`: the socket reports an error
first when `errors k` holds, then a close event with code `codes k` at clock
reading `nows k`. -/
def failure (codes : Nat → Nat) (nows : Nat → Str) (errors : Nat → Bool) (k : Nat) :
    List Event :=
  (if errors k then [Event.socketError k] else []) ++
    [Event.socketCloses k (codes k) (nows k)]

/-- The first `n` connection attempts all fail, and after each failure the
reconnect timer set by the close handler fires. -/
def failedAttempts (codes : Nat → Nat) (nows : Nat → Str) (errors : Nat → Bool) :
    Nat → List Event
  | 0 => []
  | k + 1 =>
    failedAttempts codes nows errors k ++ failure codes nows errors k ++
      [Event.reconnectFires k]

/-- No socket can report anything further and no reconnect timer is pending. -/
def SessionDead (st : ChatState) : Prop :=
  (∀ sock ∈ st.sockets, sock.readyState = ReadyState.CLOSED) ∧
    ∀ timer ∈ st.reconnectTimers, timer.pending = false

/-- The state reached from `sessionStarted` when `n` connection attempts have
failed and the `n`-th reconnect timer has fired: `n` closed sockets, one more
connecting, `n` spent timers with delays 1000, 2000, ..., attempt counter `n`. -/
def afterFailures (mode token session : Str) (transcript : List Message) (n : Nat) :
    ChatState :=
  { selected mode token session transcript with
    ws := some n
    reconnectAttempts := n
    sockets :=
      List.replicate n { boundSession := session, readyState := ReadyState.CLOSED } ++
        [{ boundSession := session, readyState := ReadyState.CONNECTING }]
    reconnectTimers :=
      (List.range n).map
        (fun k => { boundSession := session, delay := 1000 * (k + 1), pending := false }) }

/-- The state after the sixth socket has closed as well, at clock reading `now`. -/
def sessionGivenUp (marked : Str → Str) (mode token session : Str)
    (transcript : List Message) (now : Str) : ChatState :=
  { afterFailures mode token session transcript 5 with
    sockets := List.replicate 6 { boundSession := session, readyState := ReadyState.CLOSED }
    messages := transcript ++ [connectionLostEntry marked session now] }

end Chat

/-! ## Notification feed of `TeacherDashboard` -/

namespace TeacherDashboard

open Chat

/-- The refs of `TeacherDashboard` that `onclose` reads, with the delays of the
reconnect timers it has set and the navigations it has asked for. -/
structure FeedState where
  reconnectAttempts : Nat
  reconnectDelays : List Nat
  navigated : List Str
deriving DecidableEq, Repr

/-- The constant `maxReconnectAttempts` of `TeacherDashboard`. -/
def maxReconnectAttempts : Nat := 5

/-- The handler `ws.current.onclose` of `TeacherDashboard`. -/
def onclose (code : Nat) (st : FeedState) : FeedState :=
  if code = 1008 then { st with navigated := st.navigated ++ ["/login".toList] }
  else if st.reconnectAttempts < maxReconnectAttempts then
    { st with reconnectDelays := st.reconnectDelays ++ [1000 * (st.reconnectAttempts + 1)] }
  else st

end TeacherDashboard

namespace Chat

/-! ## The send operation `handleSend`

`handleSend` is modelled as one function of the component state and of what the
collaborators do during the call (`SendEnv`). Its state updates are applied in
the order of the source, with no other event in between; the calls it makes are
recorded in `calls`. -/

/-- An entry of the `messages` array of the request sent to the AI endpoint. -/
structure AiRequestMessage where
  role : Str
  content : Str
  timestamp : Str
deriving DecidableEq, Repr

/-- The calls `handleSend` makes to its collaborators: `alert`, `addMessage`,
`sendToAI`, and the 300 ms timer whose callback calls `getConversations`. -/
inductive Call
  | alert (text : Str)
  | addMessage (message : Message)
  | sendToAI (messages : List AiRequestMessage) (session_id : Str)
  | scheduleRefetch (session : Str)
deriving DecidableEq, Repr

/-- The props and state of `Chat` that `handleSend` reads or writes, with the
calls made so far. An unset `currentSession` or `token` is the empty string. -/
structure SendState where
  mode : Str
  token : Str
  currentSession : Str
  aiEnabled : Bool
  messages : List Message
  input : Str
  isAiResponding : Bool
  calls : List Call
deriving DecidableEq, Repr

/-- What the clock and the collaborators do during one `handleSend`:
`timestamp`, `requestTime`, `aiTimestamp` and `failureTime` are the readings of
`new Date().toISOString()` in source order; `persistOk` tells whether
`addMessage` resolves, `requestOk` whether `sendToAI` resolves, `responseOk` is
`response.ok`; the reader yields `chunks` and then reports `done` when `readOk`
holds, and rejects otherwise. -/
structure SendEnv where
  timestamp : Str
  persistOk : Bool
  requestTime : Str
  requestOk : Bool
  responseOk : Bool
  aiTimestamp : Str
  chunks : List Str
  readOk : Bool
  failureTime : Str
deriving DecidableEq, Repr

/-- The text of the alert shown when no conversation is selected. -/
def noSessionAlert : Str := "Vui lòng chọn hoặc tạo một phiên chat mới.".toList

/-- The text of the alert shown when the input or the token is missing. -/
def noConnectionAlert : Str := "Không thể kết nối với server. Vui lòng thử lại.".toList

/-- The object `message` built by `handleSend`. -/
def sentMessage (env : SendEnv) (st : SendState) : Message :=
  { session_id := st.currentSession
    role := if st.mode = studentMode then "user".toList else "teacher".toList
    content := st.input
    timestamp := env.timestamp }

/-- The map `msg => ({ role: msg.role || 'user', content: msg.content || '',
timestamp: msg.timestamp || new Date().toISOString() })`. -/
def toRequestMessage (requestTime : Str) (msg : Message) : AiRequestMessage :=
  { role := if msg.role = [] then "user".toList else msg.role
    content := msg.content
    timestamp := if msg.timestamp = [] then requestTime else msg.timestamp }

/-- The `messages` of `aiRequest`: the transcript of the render that created the
handler, followed by `aiMessage`. -/
def aiRequestMessages (env : SendEnv) (st : SendState) : List AiRequestMessage :=
  (st.messages ++ [sentMessage env st]).map (toRequestMessage env.requestTime)

/-- The `try` block of `handleSend`: the state when the block is left, and
whether it was left normally (`true`) or by an exception (`false`). -/
def sendBody (marked : Str → Str) (env : SendEnv) (st : SendState) : SendState × Bool :=
  let message := sentMessage env st
  let st1 := { st with isAiResponding := true, calls := st.calls ++ [Call.addMessage message] }
  if env.persistOk then
    let st2 :=
      if st.mode = studentMode then
        { st1 with messages := optimisticAdmit marked st1.messages message }
      else st1
    if st.mode = studentMode ∧ st.aiEnabled = true then
      let st3 :=
        { st2 with
          calls := st2.calls ++ [Call.sendToAI (aiRequestMessages env st) st.currentSession] }
      if env.requestOk ∧ env.responseOk ∧ env.readOk then
        ({ st3 with
            messages := st3.messages ++
              [assistantEntry marked st.currentSession (assembledContent env.chunks)
                env.aiTimestamp]
            calls := st3.calls ++ [Call.scheduleRefetch st.currentSession]
            input := [] }, true)
      else (st3, false)
    else ({ st2 with input := [] }, true)
  else (st1, false)

/-- The function `handleSend`: validation, then the `try` block, the `catch`
block when the `try` block threw, and the `finally` block. -/
def handleSend (marked : Str → Str) (env : SendEnv) (st : SendState) : SendState :=
  if st.input = [] ∨ st.currentSession = [] ∨ st.token = [] then
    { st with
      calls := st.calls ++
        [Call.alert (if st.currentSession = [] then noSessionAlert else noConnectionAlert)] }
  else
    let result := sendBody marked env st
    let st1 :=
      if result.2 then result.1
      else
        { result.1 with
          messages := result.1.messages ++
            [sendFailureEntry marked st.currentSession env.failureTime] }
    { st1 with isAiResponding := false }

/-- The calls to the history store or the AI endpoint. -/
def Call.isNetworkCall : Call → Bool
  | Call.alert _ => false
  | _ => true

/-! ## Concrete inputs -/

/-- The message used to show that the live push handler admits one payload
twice: its content holds the `<br>` marker. -/
def markerPayload : Message :=
  { session_id := "s1".toList
    role := "user".toList
    content := "Hi<br>there".toList
    timestamp := "2024-05-01T10:00:00.000Z".toList }

/-- A store row whose content holds the `<br>` marker. -/
def brRow : Message :=
  { session_id := "s1".toList
    role := "user".toList
    content := "line one<br>line two".toList
    timestamp := "2024-05-01T10:00:00.000Z".toList }

/-- The row `brRow` with a newline character in place of the marker. -/
def newlineRow : Message :=
  { brRow with content := "line one\nline two".toList }

/-- A human-role payload that the handler bound to `s1` admits. -/
def helloPayload : Message :=
  { session_id := "s1".toList
    role := "teacher".toList
    content := "hello".toList
    timestamp := "2024-05-01T10:00:01.000Z".toList }

/-- A row of the history of conversation `B`. -/
def rowOfB : Message :=
  { session_id := "B".toList
    role := "user".toList
    content := "question asked in B".toList
    timestamp := "2024-05-01T10:00:05.000Z".toList }

/-- A push payload of conversation `A`. -/
def payloadOfA : Message :=
  { session_id := "A".toList
    role := "user".toList
    content := "message sent in A".toList
    timestamp := "2024-05-01T10:00:07.000Z".toList }

/-- A learner opens conversation `A`, whose socket opens, then switches to `B`.
The cleanup closes the socket of `A`; its close event sets a reconnect timer in
the closure of `A`. The socket of `B` is created and the history of `B` arrives
while that socket is still connecting; the reconnect timer of `A` then fires,
creates a second socket for `A`, and that socket opens and delivers a message of
conversation `A`. -/
def crossDeliveryTrace : List Event :=
  [Event.selectSession "A".toList,
   Event.debounceFires,
   Event.socketOpens 0,
   Event.selectSession "B".toList,
   Event.socketCloses 0 1005 "2024-05-01T10:00:04.000Z".toList,
   Event.debounceFires,
   Event.historyArrives 1 [rowOfB],
   Event.reconnectFires 0,
   Event.socketOpens 2,
   Event.socketMessage 2 payloadOfA]

/-- The mode string of the instructor role. -/
def teacherMode : Str := "Giáo viên".toList

/-- An instructor opens conversation `s1`, whose history arrives, moves on to
conversation `s2`, and then the conversation becomes unset. -/
def teacherUnsetTrace : List Event :=
  [Event.selectSession "s1".toList,
   Event.debounceFires,
   Event.historyArrives 0 [helloPayload],
   Event.selectSession "s2".toList,
   Event.selectSession []]

/-- A learner with AI enabled, an empty transcript and the input `Hi`. -/
def hiState : SendState :=
  { mode := studentMode
    token := "token".toList
    currentSession := "s1".toList
    aiEnabled := true
    messages := []
    input := "Hi".toList
    isAiResponding := false
    calls := [] }

/-- The history store accepts the message and the stream yields `Hello there`,
then the completion sentinel, then ends. -/
def hiEnv : SendEnv :=
  { timestamp := "2024-05-01T10:00:00.000Z".toList
    persistOk := true
    requestTime := "2024-05-01T10:00:00.100Z".toList
    requestOk := true
    responseOk := true
    aiTimestamp := "2024-05-01T10:00:00.500Z".toList
    chunks := ["data: Hello there\n\n".toList, "data: [DONE]\n\n".toList]
    readOk := true
    failureTime := "2024-05-01T10:00:01.000Z".toList }

/-- The chunk ends at a frame boundary: the last piece of its split is empty. -/
def EndsAtFrameBoundary (chunk : Str) : Prop :=
  (split chunk).getLast? = some []

/-! ## Theorems: deduplication and merge -/

theorem findIndexFrom_cons {α : Type} (p : α → Bool) (x : α) (xs : List α) (i : Nat) :
    findIndexFrom p (x :: xs) i = if p x then (i : Int) else findIndexFrom p xs (i + 1) :=
  rfl

theorem findIndexFrom_hit {α : Type} (p : α → Bool) (pre : List α) (m : α) (rest : List α)
    (i : Nat) (hm : p m = true) (hpre : pre.any p = false) :
    findIndexFrom p (pre ++ m :: rest) i = ((i + pre.length : Nat) : Int) := by
  induction pre generalizing i with
  | nil => simp [findIndexFrom_cons, hm]
  | cons x xs ih =>
    simp only [List.any_cons, Bool.or_eq_false_iff] at hpre
    rw [List.cons_append, findIndexFrom_cons, ih (i + 1) hpre.2]
    simp only [hpre.1, Bool.false_eq_true, if_false, List.length_cons]
    congr 1
    omega

theorem findIndexFrom_early {α : Type} (p : α → Bool) (pre rest : List α) (i : Nat)
    (hpre : pre.any p = true) :
    findIndexFrom p (pre ++ rest) i < ((i + pre.length : Nat) : Int) := by
  induction pre generalizing i with
  | nil => simp at hpre
  | cons x xs ih =>
    rw [List.cons_append, findIndexFrom_cons]
    by_cases hx : p x = true
    · simp only [hx, if_true, List.length_cons]
      omega
    · simp only [hx, if_false, List.length_cons]
      have hxs : xs.any p = true := by
        simpa [List.any_cons, hx] using hpre
      have := ih (i + 1) hxs
      omega

theorem sameIdentity_self (m : Message) : sameIdentity m m = true := by
  simp [sameIdentity]

theorem uniqueMessages_aux (pre rest : List Message) :
    ((rest.enumFrom pre.length).filter (fun im =>
      decide ((im.1 : Int) = findIndex (fun m => sameIdentity m im.2) (pre ++ rest)))).map
        Prod.snd = firstOccurrences pre rest := by
  induction rest generalizing pre with
  | nil => simp [firstOccurrences]
  | cons m rest ih =>
    have ih2 := ih (pre ++ [m])
    simp only [List.length_append, List.length_singleton, List.append_assoc,
      List.singleton_append] at ih2
    simp only [List.enumFrom_cons, List.filter_cons, firstOccurrences]
    by_cases hpre : pre.any (fun e => sameIdentity e m) = true
    · have hlt := findIndexFrom_early (fun e => sameIdentity e m) pre (m :: rest) 0 hpre
      have hne : ¬ ((pre.length : Int) =
          findIndex (fun e => sameIdentity e m) (pre ++ m :: rest)) := by
        unfold findIndex
        omega
      simp only [hne, decide_False, Bool.false_eq_true, if_false, hpre, if_true]
      exact ih2
    · have hpre2 : pre.any (fun e => sameIdentity e m) = false := by
        simpa using hpre
      have heq := findIndexFrom_hit (fun e => sameIdentity e m) pre m rest 0
        (sameIdentity_self m) hpre2
      have he : ((pre.length : Int) =
          findIndex (fun e => sameIdentity e m) (pre ++ m :: rest)) := by
        unfold findIndex
        rw [heq]
        simp
      simp only [he, decide_True, if_true, hpre2, Bool.false_eq_true, if_false, List.map_cons]
      rw [ih2]

theorem uniqueMessages_eq (data : List Message) :
    uniqueMessages data = firstOccurrences [] data := by
  have h := uniqueMessages_aux [] data
  simpa [uniqueMessages, List.enum] using h

/-- C2. For every bulk snapshot `data`, the transcript set by the merge is the
list of the snapshot messages that have no earlier snapshot message with the same
(timestamp, content) pair, in the order of the snapshot, each carried through the
per-row display map: first occurrences are kept, later duplicates are removed,
nothing else is dropped or reordered. -/
theorem mergeBulk_keeps_first_occurrences (marked : Str → Str) (data : List Message) :
    mergeBulk marked data = (firstOccurrences [] data).map (displayRow marked) := by
  rw [mergeBulk, uniqueMessages_eq]

theorem replace_of_not_infix (pat rep s : Str) (hpat : pat ≠ []) (h : ¬ pat <:+: s) :
    replace pat rep s = s := by
  induction s with
  | nil => simp [replace, hpat]
  | cons c t ih =>
    have hpre : pat.isPrefixOf (c :: t) = false := by
      by_contra hc
      have hc2 : pat.isPrefixOf (c :: t) = true := by simpa using hc
      rw [ List.isPrefixOf_iff_prefix] at hc2
      exact h hc2.isInfix
    have ht : ¬ pat <:+: t := fun hi => h (List.infix_cons hi)
    simp only [replace, hpre, Bool.false_eq_true, if_false, ih ht]

theorem replaceBr_of_no_marker (content : Str) (h : ¬ brMarker <:+: content) :
    replaceBr content = content :=
  replace_of_not_infix brMarker ['\n'] content (by simp [brMarker]) h

/-- The optimistic admit of `handleSend` is idempotent. -/
theorem optimisticAdmit_idempotent (marked : Str → Str) (prev : List Message)
    (message : Message) :
    optimisticAdmit marked (optimisticAdmit marked prev message) message =
      optimisticAdmit marked prev message := by
  by_cases h : prev.any (fun msg => sameIdentity msg message) = true
  · simp [optimisticAdmit, h]
  · have h1 : optimisticAdmit marked prev message =
        prev ++ [{ message with rendered := some (marked message.content) }] := by
      simp [optimisticAdmit, h]
    rw [h1]
    simp [optimisticAdmit, sameIdentity]

/-- The live push handler is idempotent on payloads without the `<br>` marker. -/
theorem onmessage_idempotent_of_no_marker (marked : Str → Str) (currentSession : Str)
    (prev : List Message) (data : Message) (h : ¬ brMarker <:+: data.content) :
    onmessage marked currentSession (onmessage marked currentSession prev data) data =
      onmessage marked currentSession prev data := by
  unfold onmessage
  split_ifs <;> simp_all [sameIdentity, pushEntry, replaceBr_of_no_marker]

/-- C1. The live push handler of `Chat` admits the same human-role payload twice
when its content holds the `<br>` marker: from the empty transcript, the second
delivery of `markerPayload` is not rejected and the transcript holds two entries
that both carry the timestamp of the payload and the rewritten text. -/
theorem onmessage_admits_marker_payload_twice (marked : Str → Str) :
    onmessage marked "s1".toList (onmessage marked "s1".toList [] markerPayload) markerPayload
        = [pushEntry marked "s1".toList markerPayload,
           pushEntry marked "s1".toList markerPayload] ∧
      onmessage marked "s1".toList (onmessage marked "s1".toList [] markerPayload) markerPayload
        ≠ onmessage marked "s1".toList [] markerPayload ∧
      (pushEntry marked "s1".toList markerPayload).content = "Hi\nthere".toList := by
  refine ⟨?_, ?_, ?_⟩
  · simp [onmessage, markerPayload, sameIdentity, pushEntry, replaceBr, replace, brMarker]
  · simp [onmessage, markerPayload, sameIdentity, pushEntry, replaceBr, replace, brMarker]
  · simp [markerPayload, pushEntry, replaceBr, replace, brMarker]

/-- C4. Two messages with one timestamp whose contents differ only in `<br>`
against a newline are not treated as one identity by the code: the bulk merge
keeps both rows (and both then carry the same text), and the live handler admits
the marker variant although the newline variant is already in the transcript. -/
theorem marker_variants_both_kept (marked : Str → Str) :
    mergeBulk marked [brRow, newlineRow] =
        [displayRow marked brRow, displayRow marked newlineRow] ∧
      (displayRow marked brRow).content = (displayRow marked newlineRow).content ∧
      (displayRow marked brRow).timestamp = (displayRow marked newlineRow).timestamp ∧
      onmessage marked "s1".toList (onmessage marked "s1".toList [] newlineRow) brRow =
        [pushEntry marked "s1".toList newlineRow, pushEntry marked "s1".toList brRow] ∧
      sameIdentity (pushEntry marked "s1".toList newlineRow)
        (pushEntry marked "s1".toList brRow) = true := by
  refine ⟨?_, ?_, ?_, ?_, ?_⟩
  · rw [mergeBulk, uniqueMessages_eq]
    simp [firstOccurrences, sameIdentity, brRow, newlineRow]
  · simp [displayRow, brRow, newlineRow, replaceBr, replace, brMarker]
  · simp [displayRow, brRow, newlineRow]
  · simp [onmessage, sameIdentity, pushEntry, brRow, newlineRow, replaceBr, replace, brMarker]
  · simp [sameIdentity, pushEntry, brRow, newlineRow, replaceBr, replace, brMarker]

/-- C7. The message handler of `Chat` changes the transcript only if the payload
is not a ping, its `session_id` is the session the handler was bound to and its
role is `user` or `teacher`; a payload with role `assistant` leaves the transcript
unchanged. -/
theorem onmessage_changes_only_if (marked : Str → Str) (currentSession : Str)
    (prev : List Message) (data : Message) :
    (onmessage marked currentSession prev data ≠ prev →
      data.type ≠ some "ping".toList ∧ data.session_id = currentSession ∧
        (data.role = "user".toList ∨ data.role = "teacher".toList)) ∧
    (data.role = "assistant".toList → onmessage marked currentSession prev data = prev) := by
  constructor
  · intro h
    unfold onmessage at h
    split_ifs at h <;> simp_all
  · intro h
    have h1 : ¬ data.role = "user".toList := by rw [h]; decide
    have h2 : ¬ data.role = "teacher".toList := by rw [h]; decide
    unfold onmessage
    split_ifs <;> simp_all

theorem onmessage_changes_only_if_witness :
    (onmessage id "s1".toList [] helloPayload ≠ [] ∧
      (helloPayload.type ≠ some "ping".toList ∧ helloPayload.session_id = "s1".toList ∧
        (helloPayload.role = "user".toList ∨ helloPayload.role = "teacher".toList))) ∧
    onmessage id "s1".toList [] { helloPayload with role := "assistant".toList } = [] :=
  ⟨⟨by decide, (onmessage_changes_only_if id "s1".toList [] helloPayload).1 (by decide)⟩,
    (onmessage_changes_only_if id "s1".toList []
      { helloPayload with role := "assistant".toList }).2 (by decide)⟩

/-! ## Theorems: the no-duplicate invariant -/

theorem firstOccurrences_distinct (earlier rest : List Message) :
    NoDuplicateIdentity (firstOccurrences earlier rest) ∧
      ∀ x ∈ firstOccurrences earlier rest,
        x ∈ rest ∧ ∀ e ∈ earlier, sameIdentity e x = false := by
  induction rest generalizing earlier with
  | nil => simp [firstOccurrences, NoDuplicateIdentity]
  | cons m rest ih =>
    obtain ⟨hp, hx⟩ := ih (earlier ++ [m])
    have hx2 : ∀ x ∈ firstOccurrences (earlier ++ [m]) rest,
        x ∈ m :: rest ∧ ∀ e ∈ earlier, sameIdentity e x = false := by
      intro x hxm
      obtain ⟨h1, h2⟩ := hx x hxm
      exact ⟨List.mem_cons_of_mem _ h1, fun e he => h2 e (List.mem_append_left _ he)⟩
    by_cases hany : earlier.any (fun e => sameIdentity e m) = true
    · simp only [firstOccurrences, hany, if_true]
      exact ⟨hp, hx2⟩
    · simp only [firstOccurrences, hany, Bool.false_eq_true, if_false]
      refine ⟨?_, ?_⟩
      · unfold NoDuplicateIdentity
        rw [List.pairwise_cons]
        exact ⟨fun x hxm => (hx x hxm).2 m (by simp), hp⟩
      · intro x hxm
        rcases List.mem_cons.1 hxm with rfl | hxm
        · refine ⟨by simp, ?_⟩
          intro e he
          by_contra hc
          apply hany
          rw [List.any_eq_true]
          exact ⟨e, he, by simpa using hc⟩
        · exact hx2 x hxm

theorem sameIdentity_displayRow (marked : Str → Str) (a b : Message)
    (ha : ¬ brMarker <:+: a.content) (hb : ¬ brMarker <:+: b.content) :
    sameIdentity (displayRow marked a) (displayRow marked b) = sameIdentity a b := by
  simp [sameIdentity, displayRow, replaceBr_of_no_marker _ ha, replaceBr_of_no_marker _ hb]

theorem mergeBulk_distinct (marked : Str → Str) (data : List Message)
    (h : ∀ m ∈ data, ¬ brMarker <:+: m.content) :
    NoDuplicateIdentity (mergeBulk marked data) := by
  obtain ⟨hp, hx⟩ := firstOccurrences_distinct [] data
  rw [mergeBulk, uniqueMessages_eq]
  unfold NoDuplicateIdentity at hp ⊢
  rw [List.pairwise_map]
  refine List.Pairwise.imp_of_mem ?_ hp
  intro a b ha hb hab
  rw [sameIdentity_displayRow marked a b (h a (hx a ha).1) (h b (hx b hb).1)]
  exact hab

theorem append_fresh_distinct (t : List Message) (entry : Message)
    (ht : NoDuplicateIdentity t) (h : ∀ e ∈ t, sameIdentity e entry = false) :
    NoDuplicateIdentity (t ++ [entry]) := by
  unfold NoDuplicateIdentity at ht ⊢
  rw [List.pairwise_append]
  refine ⟨ht, List.pairwise_singleton _ _, ?_⟩
  intro a ha b hb
  rw [List.mem_singleton] at hb
  subst hb
  exact h a ha

theorem onmessage_distinct (marked : Str → Str) (currentSession : Str) (t : List Message)
    (data : Message) (ht : NoDuplicateIdentity t) (h : ¬ brMarker <:+: data.content) :
    NoDuplicateIdentity (onmessage marked currentSession t data) := by
  unfold onmessage
  split_ifs with h1 h2 h3 h4
  · exact ht
  · exact ht
  · exact ht
  · apply append_fresh_distinct t _ ht
    intro e he
    have h5 : sameIdentity e data = false := by
      by_contra hc
      apply h4
      rw [List.any_eq_true]
      exact ⟨e, he, by simpa using hc⟩
    simpa [sameIdentity, pushEntry, replaceBr_of_no_marker _ h] using h5
  · exact ht

theorem optimisticAdmit_distinct (marked : Str → Str) (t : List Message) (message : Message)
    (ht : NoDuplicateIdentity t) : NoDuplicateIdentity (optimisticAdmit marked t message) := by
  unfold optimisticAdmit
  split_ifs with h1
  · exact ht
  · apply append_fresh_distinct t _ ht
    intro e he
    have h5 : sameIdentity e message = false := by
      by_contra hc
      apply h1
      rw [List.any_eq_true]
      exact ⟨e, he, by simpa using hc⟩
    simpa [sameIdentity] using h5

/-- C3, as stated, fails: two apology appends of `handleSend` at one clock
reading give a reachable transcript with two entries of the same (timestamp,
content) pair. -/
theorem reachable_with_duplicate_identity :
    ¬ ∀ t : List Message, Reachable id t → NoDuplicateIdentity t := by
  intro h
  have hr : Reachable id
      (([] ++ [sendFailureEntry id "s1".toList "2024-05-01T10:00:00.000Z".toList]) ++
        [sendFailureEntry id "s1".toList "2024-05-01T10:00:00.000Z".toList]) :=
    Reachable.sendFailure _ _ _ (Reachable.sendFailure _ _ _ Reachable.empty)
  have hd := h _ hr
  simp [NoDuplicateIdentity, sameIdentity] at hd

/-- C3, amended. In every transcript reachable from the empty one by bulk merges
and live push admissions of messages whose content holds no `<br>` marker, by
optimistic admissions, and by assistant-reply commits and apology or
system-message appends whose (timestamp, content) pair is not yet in the
transcript, no two entries have the same (timestamp, content) pair. -/
theorem reachableFresh_no_duplicate (marked : Str → Str) (t : List Message)
    (h : ReachableFresh marked t) : NoDuplicateIdentity t := by
  induction h with
  | empty => exact List.Pairwise.nil
  | bulkMerge t data _ hdata _ => exact mergeBulk_distinct marked data hdata
  | livePush t s data _ hdata ih => exact onmessage_distinct marked s t data ih hdata
  | optimistic t message _ ih => exact optimisticAdmit_distinct marked t message ih
  | assistantCommit t s r ts _ hfresh ih => exact append_fresh_distinct t _ ih hfresh
  | sendFailure t s now _ hfresh ih => exact append_fresh_distinct t _ ih hfresh
  | connectionLost t s now _ hfresh ih => exact append_fresh_distinct t _ ih hfresh

theorem reachableFresh_no_duplicate_witness :
    ReachableFresh id (onmessage id "s1".toList [] helloPayload ++
        [assistantEntry id "s1".toList "hi".toList "2024-05-01T10:00:02.000Z".toList]) ∧
      NoDuplicateIdentity (onmessage id "s1".toList [] helloPayload ++
        [assistantEntry id "s1".toList "hi".toList "2024-05-01T10:00:02.000Z".toList]) :=
  ⟨ReachableFresh.assistantCommit _ _ _ _
      (ReachableFresh.livePush _ _ _ ReachableFresh.empty (by decide)) (by decide),
    reachableFresh_no_duplicate id _
      (ReachableFresh.assistantCommit _ _ _ _
        (ReachableFresh.livePush _ _ _ ReachableFresh.empty (by decide)) (by decide))⟩

/-! ## Theorems: stream assembly -/

theorem foldl_appendFrame (lines : List Str) (aiResponse : Str) :
    lines.foldl appendFrame aiResponse =
      aiResponse ++ ((((lines.filter (fun line => dataMarker.isPrefixOf line)).map
        (fun line => trim (line.drop 6))).filter (fun data => !skipped data)).flatten) := by
  induction lines generalizing aiResponse with
  | nil => simp
  | cons line lines ih =>
    rw [List.foldl_cons, ih]
    by_cases h1 : dataMarker.isPrefixOf line = true
    · by_cases h2 : skipped (trim (line.drop 6)) = true
      · simp [appendFrame, h1, h2]
      · simp [appendFrame, h1, h2]
    · simp [appendFrame, h1]

theorem foldl_readChunk (chunks : List Str) (aiResponse : Str) :
    chunks.foldl readChunk aiResponse = aiResponse ++ (keptPayloads chunks).flatten := by
  induction chunks generalizing aiResponse with
  | nil => simp [keptPayloads, dataFrames]
  | cons chunk chunks ih =>
    rw [List.foldl_cons, ih, readChunk, foldl_appendFrame]
    simp [keptPayloads, dataFrames, List.flatMap_cons]

/-- C5, as stated, fails: for the three chunks of the sentinel scenario the
assembled content is `Helloworld`, not `Hello world`, because the space that
leads the second payload is removed before the payload is appended. -/
theorem assembledContent_helloWorld_no_space :
    assembledContent helloWorldChunks = "Helloworld".toList ∧
      assembledContent helloWorldChunks ≠ "Hello world".toList := by
  decide

/-- C5, amended. For every sequence of stream chunks, the assembled assistant
content is the concatenation, in arrival order, of the payload texts after the
`data: ` marker of the frames, each payload stripped of its own leading and
trailing whitespace and left out when the stripped text is empty, is `[DONE]` or
starts with `SOURCE_LANG`, with the whole accumulated text trimmed again; for the
three chunks of the sentinel scenario the content is `Helloworld`. -/
theorem assembledContent_eq_trimmed_payloads (chunks : List Str) :
    assembledContent chunks = trim (keptPayloads chunks).flatten ∧
      assembledContent helloWorldChunks = "Helloworld".toList := by
  refine ⟨?_, by decide⟩
  rw [assembledContent, readLoop, foldl_readChunk]
  simp

theorem split_ne_nil (s : Str) : split s ≠ [] := by
  induction s using split.induct with
  | case1 => simp [split]
  | case2 c => simp [split]
  | case3 c d rest h ih => simp [split, h]
  | case4 c d rest h ih =>
    rw [split, if_neg h]
    cases hs : split (d :: rest) with
    | nil => exact absurd hs ih
    | cons p ps => simp [pushFront]

theorem split_append_of_boundary (a x : Str) (init : List Str)
    (h : split a = init ++ [[]]) : split (a ++ x) = init ++ split x := by
  induction a using split.induct generalizing init with
  | case1 =>
    have hi : init = [] := by
      cases init with
      | nil => rfl
      | cons p ps => simp [split] at h
    simp [hi]
  | case2 c =>
    exfalso
    cases init with
    | nil => simp [split] at h
    | cons p ps => simp [split] at h
  | case3 c d rest hcd ih =>
    rw [split, if_pos hcd] at h
    cases init with
    | nil =>
      exfalso
      simp only [List.nil_append, List.cons.injEq, true_and] at h
      exact split_ne_nil rest h
    | cons p ps =>
      simp only [List.cons_append, List.cons.injEq] at h
      have hx := ih ps h.2
      show split (c :: d :: (rest ++ x)) = _
      rw [split, if_pos hcd, hx, ← h.1]
      rfl
  | case4 c d rest hcd ih =>
    rw [split, if_neg hcd] at h
    cases hs : split (d :: rest) with
    | nil => exact absurd hs (split_ne_nil _)
    | cons q qs =>
      rw [hs] at h
      simp only [pushFront] at h
      cases init with
      | nil => simp at h
      | cons p ps =>
        simp only [List.cons_append, List.cons.injEq] at h
        have hx := ih (q :: ps) (by rw [hs, h.2]; rfl)
        show split (c :: d :: (rest ++ x)) = _
        rw [split, if_neg hcd]
        have hx2 : split (d :: (rest ++ x)) = q :: ps ++ split x := hx
        rw [hx2, ← h.1]
        rfl

theorem dropWhile_reverse_keeps (p l : Str)
    (hp : p.reverse.dropWhile isTrimChar = p.reverse) :
    ∃ r, ((l ++ p.reverse).dropWhile isTrimChar).reverse = p ++ r := by
  induction l with
  | nil => exact ⟨[], by simp [hp]⟩
  | cons c l ih =>
    by_cases hc : isTrimChar c = true
    · obtain ⟨r, hr⟩ := ih
      exact ⟨r, by simp [List.dropWhile_cons, hc, hr]⟩
    · exact ⟨l.reverse ++ [c], by simp [List.dropWhile_cons, hc]⟩

theorem trim_keeps_sourceLangTag (payload : Str) (h : sourceLangTag <+: payload) :
    sourceLangTag.isPrefixOf (trim payload) = true := by
  obtain ⟨r, rfl⟩ := h
  have h1 : (sourceLangTag ++ r).dropWhile isTrimChar = sourceLangTag ++ r := by
    show (('S' :: "OURCE_LANG".toList) ++ r).dropWhile isTrimChar = _
    rw [List.cons_append, List.dropWhile_cons_of_neg (by decide)]
    rfl
  obtain ⟨r2, hr2⟩ := dropWhile_reverse_keeps sourceLangTag r.reverse (by decide)
  rw [trim, h1, List.reverse_append, hr2, List.isPrefixOf_iff_prefix]
  exact List.prefix_append _ _

theorem appendFrame_sentinel (aiResponse payload : Str)
    (hsent : payload = doneSentinel ∨ sourceLangTag <+: payload) :
    appendFrame aiResponse (dataMarker ++ payload) = aiResponse := by
  have h1 : dataMarker.isPrefixOf (dataMarker ++ payload) = true := by
    rw [ List.isPrefixOf_iff_prefix]
    exact List.prefix_append _ _
  have h2 : (dataMarker ++ payload).drop 6 = payload := List.drop_left dataMarker payload
  have h3 : skipped (trim payload) = true := by
    rcases hsent with rfl | hs
    · decide
    · simp [skipped, trim_keeps_sourceLangTag payload hs]
  simp [appendFrame, h1, h2, h3]

theorem readChunk_without_sentinel (aiResponse a b payload : Str)
    (hsent : payload = doneSentinel ∨ sourceLangTag <+: payload)
    (hframe : split (dataMarker ++ payload ++ ['\n', '\n']) = [dataMarker ++ payload, []])
    (ha : (split a).getLast? = some []) :
    readChunk aiResponse (a ++ (dataMarker ++ payload ++ ['\n', '\n']) ++ b) =
      readChunk aiResponse (a ++ b) := by
  obtain ⟨init, hinit⟩ := List.getLast?_eq_some_iff.1 ha
  have h1 : split (a ++ (dataMarker ++ payload ++ ['\n', '\n']) ++ b) =
      init ++ ([dataMarker ++ payload] ++ split b) := by
    rw [List.append_assoc a, split_append_of_boundary a _ init hinit,
      split_append_of_boundary _ b [dataMarker ++ payload] hframe]
  have h2 : split (a ++ b) = init ++ split b := split_append_of_boundary a b init hinit
  rw [readChunk, readChunk, h1, h2]
  simp only [List.foldl_append, List.foldl_cons, List.foldl_nil,
    appendFrame_sentinel _ payload hsent]

/-- C6. A complete frame whose payload is `[DONE]` or begins with `SOURCE_LANG`
contributes nothing to the assembled text: when the text `a` before the frame
ends at a frame boundary and the frame with its delimiter splits off as one
piece, assembling the chunk sequence gives the same content as assembling it with
the frame and its double-newline delimiter removed. -/
theorem sentinel_frame_contributes_nothing (before after : List Str) (a b payload : Str)
    (hsent : payload = doneSentinel ∨ sourceLangTag <+: payload)
    (hframe : split (dataMarker ++ payload ++ ['\n', '\n']) = [dataMarker ++ payload, []])
    (ha : (split a).getLast? = some []) :
    assembledContent
        (before ++ [a ++ (dataMarker ++ payload ++ ['\n', '\n']) ++ b] ++ after) =
      assembledContent (before ++ [a ++ b] ++ after) := by
  simp only [assembledContent, readLoop, List.foldl_append, List.foldl_cons, List.foldl_nil,
    readChunk_without_sentinel _ a b payload hsent hframe ha]

theorem sentinel_frame_contributes_nothing_witness :
    ("SOURCE_LANG:vi".toList = doneSentinel ∨ sourceLangTag <+: "SOURCE_LANG:vi".toList) ∧
      split (dataMarker ++ "SOURCE_LANG:vi".toList ++ ['\n', '\n']) =
        [dataMarker ++ "SOURCE_LANG:vi".toList, []] ∧
      (split "data: Xin\n\n".toList).getLast? = some [] ∧
      assembledContent (["data: A\n\n".toList] ++
          ["data: Xin\n\n".toList ++ (dataMarker ++ "SOURCE_LANG:vi".toList ++ ['\n', '\n'])
            ++ "data: chao\n\n".toList] ++ ["data: [DONE]\n\n".toList]) =
        assembledContent (["data: A\n\n".toList] ++
          ["data: Xin\n\n".toList ++ "data: chao\n\n".toList] ++
            ["data: [DONE]\n\n".toList]) :=
  ⟨by decide, by decide, by decide,
    sentinel_frame_contributes_nothing _ _ _ _ _ (by decide) (by decide) (by decide)⟩

/-! ## Theorems: channel session -/

/-- C8. The handler of a session bound to `A` does change the transcript held
for `B`: along `crossDeliveryTrace` the component ends with current conversation
`B` and a transcript that holds, after the history of `B`, an entry admitted from
the push channel whose `session_id` is `A`. -/
theorem stale_session_delivers_into_new_conversation :
    (run id (mounted studentMode "token".toList) crossDeliveryTrace).map
        (fun st => (st.currentSession, st.sessionRef, st.messages)) =
      some ("B".toList, "B".toList, [displayRow id rowOfB, pushEntry id "A".toList payloadOfA]) ∧
    (pushEntry id "A".toList payloadOfA).session_id = "A".toList ∧
    onmessage id "A".toList (mergeBulk id [rowOfB]) payloadOfA ≠ mergeBulk id [rowOfB] := by
  decide

theorem step_of_sessionDead (marked : Str → Str) (st st1 : ChatState) (e : Event)
    (hd : SessionDead st) (he : e.isSessionEvent = true) (h : step marked st e = some st1) :
    st1 = st := by
  obtain ⟨hs, ht⟩ := hd
  cases e with
  | selectSession session => simp [Event.isSessionEvent] at he
  | debounceFires => simp [Event.isSessionEvent] at he
  | historyArrives k data => simp [Event.isSessionEvent] at he
  | socketOpens i =>
    simp only [step] at h
    cases hi : st.sockets[i]? with
    | none => simp [hi] at h
    | some sock =>
      have := hs sock (List.getElem?_mem hi)
      simp [hi, this] at h
  | socketMessage i data =>
    simp only [step] at h
    cases hi : st.sockets[i]? with
    | none => simp [hi] at h
    | some sock =>
      have := hs sock (List.getElem?_mem hi)
      simp [hi, this] at h
  | socketError i =>
    simp only [step] at h
    cases hi : st.sockets[i]? with
    | none => simp [hi] at h
    | some sock =>
      simp only [hi, Option.some.injEq] at h
      rw [← h, onerror, closeCurrent]
      cases hw : st.ws with
      | none => rfl
      | some j =>
        cases hj : st.sockets[j]? with
        | none => simp [hj]
        | some sock2 =>
          have := hs sock2 (List.getElem?_mem hj)
          simp [hj, this]
  | socketCloses i code now =>
    simp only [step] at h
    cases hi : st.sockets[i]? with
    | none => simp [hi] at h
    | some sock =>
      have := hs sock (List.getElem?_mem hi)
      simp [hi, this] at h
  | reconnectFires k =>
    simp only [step] at h
    cases hk : st.reconnectTimers[k]? with
    | none => simp [hk] at h
    | some timer =>
      have := ht timer (List.getElem?_mem hk)
      simp [hk, this] at h

theorem run_of_sessionDead (marked : Str → Str) (st st1 : ChatState) (evs : List Event)
    (hd : SessionDead st) (he : ∀ e ∈ evs, e.isSessionEvent = true)
    (h : run marked st evs = some st1) : st1 = st := by
  induction evs with
  | nil => simpa [run] using h.symm
  | cons e es ih =>
    simp only [run] at h
    cases hs : step marked st e with
    | none => simp [hs] at h
    | some st2 =>
      have h2 := step_of_sessionDead marked st st2 e hd (he e (by simp)) hs
      subst h2
      rw [hs] at h
      exact ih (fun e2 h3 => he e2 (List.mem_cons_of_mem _ h3)) h

/-- C9, as stated, fails: with attempt counter 2 the close handlers of `Chat`
and of `TeacherDashboard` set the reconnect timer to 3000 ms, not to 2 times the
1000 ms base interval. -/
theorem reconnect_delay_at_counter_two :
    ((onclose id "s1".toList 1006 "2024-05-01T10:00:00.000Z".toList
        { sessionStarted studentMode "token".toList "s1".toList [] with
          reconnectAttempts := 2 }).reconnectTimers.map (fun timer => timer.delay) = [3000]) ∧
      (TeacherDashboard.onclose 1006
        { reconnectAttempts := 2, reconnectDelays := [], navigated := [] }).reconnectDelays
          = [3000] ∧
      (3000 : Nat) ≠ 2 * 1000 := by
  decide

/-- C9, amended. On a close event with a non-authorization code while the attempt
counter is `n` below the ceiling of 5, the reconnect is scheduled with a delay of
`n + 1` times the 1000 ms base interval, in `Chat` and in `TeacherDashboard`;
with attempt counter 2 the delay is 3000 ms. -/
theorem reconnect_delay_is_next_attempt_times_base (marked : Str → Str)
    (boundSession now : Str) (code : Nat) (st : ChatState) (feed : TeacherDashboard.FeedState)
    (hcode : code ≠ 1008) (hst : st.reconnectAttempts < 5) (hfeed : feed.reconnectAttempts < 5) :
    (onclose marked boundSession code now st).reconnectTimers =
        st.reconnectTimers ++
          [{ boundSession := boundSession, delay := (st.reconnectAttempts + 1) * 1000,
             pending := true }] ∧
      (TeacherDashboard.onclose code feed).reconnectDelays =
        feed.reconnectDelays ++ [(feed.reconnectAttempts + 1) * 1000] ∧
      (st.reconnectAttempts = 2 →
        ((onclose marked boundSession code now st).reconnectTimers.getLast?).map
          (fun timer => timer.delay) = some 3000) ∧
      (feed.reconnectAttempts = 2 →
        (TeacherDashboard.onclose code feed).reconnectDelays.getLast? = some 3000) := by
  have h1 : (onclose marked boundSession code now st).reconnectTimers =
      st.reconnectTimers ++
        [{ boundSession := boundSession, delay := (st.reconnectAttempts + 1) * 1000,
           pending := true }] := by
    simp [onclose, hcode, maxReconnectAttempts, hst, Nat.mul_comm]
  have h2 : (TeacherDashboard.onclose code feed).reconnectDelays =
      feed.reconnectDelays ++ [(feed.reconnectAttempts + 1) * 1000] := by
    simp [TeacherDashboard.onclose, hcode, TeacherDashboard.maxReconnectAttempts, hfeed,
      Nat.mul_comm]
  refine ⟨h1, h2, ?_, ?_⟩
  · intro h
    rw [h1, h]
    simp
  · intro h
    rw [h2, h]
    simp

theorem reconnect_delay_is_next_attempt_times_base_witness :
    (1006 ≠ 1008 ∧ (2 : Nat) < 5) ∧
      (onclose id "s1".toList 1006 "2024-05-01T10:00:00.000Z".toList
        { sessionStarted studentMode "token".toList "s1".toList [] with
          reconnectAttempts := 2 }).reconnectTimers =
        [] ++ [{ boundSession := "s1".toList, delay := (2 + 1) * 1000, pending := true }] ∧
      (TeacherDashboard.onclose 1006
        { reconnectAttempts := 2, reconnectDelays := [], navigated := [] }).reconnectDelays
          = [] ++ [(2 + 1) * 1000] :=
  ⟨by decide,
    (reconnect_delay_is_next_attempt_times_base id "s1".toList
      "2024-05-01T10:00:00.000Z".toList 1006
      { sessionStarted studentMode "token".toList "s1".toList [] with reconnectAttempts := 2 }
      { reconnectAttempts := 2, reconnectDelays := [], navigated := [] }
      (by decide) (by decide) (by decide)).1,
    (reconnect_delay_is_next_attempt_times_base id "s1".toList
      "2024-05-01T10:00:00.000Z".toList 1006
      { sessionStarted studentMode "token".toList "s1".toList [] with reconnectAttempts := 2 }
      { reconnectAttempts := 2, reconnectDelays := [], navigated := [] }
      (by decide) (by decide) (by decide)).2.1⟩

theorem run_append (marked : Str → Str) (st : ChatState) (es fs : List Event) :
    run marked st (es ++ fs) =
      match run marked st es with
      | some st1 => run marked st1 fs
      | none => none := by
  induction es generalizing st with
  | nil => rfl
  | cons e es ih =>
    simp only [List.cons_append, run]
    cases step marked st e with
    | none => rfl
    | some st1 => exact ih st1

theorem sessionStarted_eq (mode token session : Str) (transcript : List Message)
    (hs : session ≠ []) (htok : token ≠ []) :
    sessionStarted mode token session transcript =
      afterFailures mode token session transcript 0 := by
  simp [sessionStarted, afterFailures, selected, mounted, connectWebSocket, wsIsOpen, hs, htok]

theorem run_round (marked : Str → Str) (mode token session : Str)
    (transcript : List Message) (codes : Nat → Nat) (nows : Nat → Str) (errors : Nat → Bool)
    (n : Nat) (hn : n < 5) (hs : session ≠ []) (htok : token ≠ [])
    (hcodes : ∀ k, codes k ≠ 1008) :
    run marked (afterFailures mode token session transcript n)
        (failure codes nows errors n ++ [Event.reconnectFires n]) =
      some (afterFailures mode token session transcript (n + 1)) := by
  have hc := hcodes n
  simp only [failure]
  generalize errors n = b
  generalize codes n = c at hc
  generalize nows n = now
  interval_cases n <;> cases b <;>
  simp [run, step, selected, afterFailures, mounted, connectWebSocket, wsIsOpen,
    setReadyState, onclose, onerror, closeCurrent, reconnectCallback, maxReconnectAttempts,
    hs, htok, hc, List.replicate, List.range, List.range.loop]

theorem run_failedAttempts (marked : Str → Str) (mode token session : Str)
    (transcript : List Message) (codes : Nat → Nat) (nows : Nat → Str) (errors : Nat → Bool)
    (n : Nat) (hn : n ≤ 5) (hs : session ≠ []) (htok : token ≠ [])
    (hcodes : ∀ k, codes k ≠ 1008) :
    run marked (sessionStarted mode token session transcript)
        (failedAttempts codes nows errors n) =
      some (afterFailures mode token session transcript n) := by
  induction n with
  | zero => simp [failedAttempts, run, sessionStarted_eq mode token session transcript hs htok]
  | succ k ih =>
    rw [failedAttempts, List.append_assoc, run_append, ih (by omega)]
    exact run_round marked mode token session transcript codes nows errors k (by omega) hs
      htok hcodes

theorem run_last_failure (marked : Str → Str) (mode token session : Str)
    (transcript : List Message) (codes : Nat → Nat) (nows : Nat → Str) (errors : Nat → Bool)
    (hcodes : ∀ k, codes k ≠ 1008) :
    run marked (afterFailures mode token session transcript 5)
        (failure codes nows errors 5) =
      some (sessionGivenUp marked mode token session transcript (nows 5)) := by
  cases h5 : errors 5 <;>
  simp [failure, run, step, selected, afterFailures, sessionGivenUp, mounted,
    setReadyState, onclose, onerror, closeCurrent, maxReconnectAttempts, hcodes,
    List.replicate, List.range, List.range.loop, h5]

theorem sessionGivenUp_dead (marked : Str → Str) (mode token session : Str)
    (transcript : List Message) (now : Str) :
    SessionDead (sessionGivenUp marked mode token session transcript now) := by
  constructor
  · intro sock h
    simp only [sessionGivenUp, List.mem_replicate] at h
    rw [h.2]
  · intro timer h
    simp only [sessionGivenUp, afterFailures, List.mem_map] at h
    obtain ⟨d, _, rfl⟩ := h
    rfl

/-- C10. In the `Chat` channel session, starting with attempt counter 0 and with
every connection attempt ending in a non-authorization close (with or without an
error event before it), five reconnects are scheduled (after 1000, 2000, 3000,
4000 and 5000 ms) and the transcript is untouched until the fifth reconnect has
fired; the close that follows schedules no reconnect and appends exactly one
system message; afterwards no socket event or reconnect timer of the session
can change the transcript or the timers. -/
theorem reconnect_ceiling (marked : Str → Str) (mode token session : Str)
    (transcript : List Message) (codes : Nat → Nat) (nows : Nat → Str) (errors : Nat → Bool)
    (hs : session ≠ []) (htok : token ≠ []) (hcodes : ∀ k, codes k ≠ 1008) :
    run marked (sessionStarted mode token session transcript)
        (failedAttempts codes nows errors 5) =
        some (afterFailures mode token session transcript 5) ∧
      (sessionStarted mode token session transcript).reconnectAttempts = 0 ∧
      (sessionStarted mode token session transcript).reconnectTimers = [] ∧
      (afterFailures mode token session transcript 5).reconnectTimers.map
        (fun timer => timer.delay) = [1000, 2000, 3000, 4000, 5000] ∧
      (afterFailures mode token session transcript 5).messages = transcript ∧
      run marked (afterFailures mode token session transcript 5)
          (failure codes nows errors 5) =
        some (sessionGivenUp marked mode token session transcript (nows 5)) ∧
      (sessionGivenUp marked mode token session transcript (nows 5)).reconnectTimers =
        (afterFailures mode token session transcript 5).reconnectTimers ∧
      (sessionGivenUp marked mode token session transcript (nows 5)).messages =
        transcript ++ [connectionLostEntry marked session (nows 5)] ∧
      ∀ (evs : List Event) (st1 : ChatState), (∀ e ∈ evs, e.isSessionEvent = true) →
        run marked (sessionGivenUp marked mode token session transcript (nows 5)) evs =
          some st1 →
        st1.messages = transcript ++ [connectionLostEntry marked session (nows 5)] ∧
          st1.reconnectTimers.length = 5 := by
  refine ⟨run_failedAttempts marked mode token session transcript codes nows errors 5
      (Nat.le_refl 5) hs htok hcodes, ?_, ?_, ?_, ?_,
    run_last_failure marked mode token session transcript codes nows errors hcodes,
    ?_, ?_, ?_⟩
  · simp [sessionStarted, selected, connectWebSocket, mounted, wsIsOpen, hs, htok]
  · simp [sessionStarted, selected, connectWebSocket, mounted, wsIsOpen, hs, htok]
  · simp [afterFailures, List.range, List.range.loop]
  · simp [afterFailures, selected]
  · simp [sessionGivenUp]
  · simp [sessionGivenUp]
  · intro evs st1 he hrun
    have h := run_of_sessionDead marked _ st1 evs
      (sessionGivenUp_dead marked mode token session transcript (nows 5)) he hrun
    rw [h]
    simp [sessionGivenUp, afterFailures]

theorem reconnect_ceiling_witness :
    ("s1".toList ≠ [] ∧ "token".toList ≠ [] ∧ ∀ k : Nat, (fun _ => 1006) k ≠ 1008) ∧
      run id (sessionStarted studentMode "token".toList "s1".toList [helloPayload])
          (failedAttempts (fun _ => 1006) (fun _ => "2024-05-01T10:00:09.000Z".toList)
            (fun _ => true) 5) =
        some (afterFailures studentMode "token".toList "s1".toList [helloPayload] 5) ∧
      run id (afterFailures studentMode "token".toList "s1".toList [helloPayload] 5)
          (failure (fun _ => 1006) (fun _ => "2024-05-01T10:00:09.000Z".toList)
            (fun _ => true) 5) =
        some (sessionGivenUp id studentMode "token".toList "s1".toList [helloPayload]
          "2024-05-01T10:00:09.000Z".toList) :=
  ⟨⟨by decide, by decide, fun _ => (by decide : (1006 : Nat) ≠ 1008)⟩,
    (reconnect_ceiling id studentMode "token".toList "s1".toList [helloPayload]
      (fun _ => 1006) (fun _ => "2024-05-01T10:00:09.000Z".toList) (fun _ => true)
      (by decide) (by decide) (fun _ => (by decide : (1006 : Nat) ≠ 1008))).1,
    (reconnect_ceiling id studentMode "token".toList "s1".toList [helloPayload]
      (fun _ => 1006) (fun _ => "2024-05-01T10:00:09.000Z".toList) (fun _ => true)
      (by decide) (by decide) (fun _ => (by decide : (1006 : Nat) ≠ 1008))).2.2.2.2.2.1⟩

/-- C11. For every attempt-counter value and every transcript, a close event
with code 1008 schedules no reconnect, leaves the attempt counter and the
transcript unchanged and asks for the navigation to `/login`, in `Chat` and in
`TeacherDashboard`. -/
theorem auth_close_short_circuit (marked : Str → Str) (boundSession now : Str)
    (st : ChatState) (feed : TeacherDashboard.FeedState) :
    (onclose marked boundSession 1008 now st).reconnectTimers = st.reconnectTimers ∧
      (onclose marked boundSession 1008 now st).reconnectAttempts = st.reconnectAttempts ∧
      (onclose marked boundSession 1008 now st).messages = st.messages ∧
      (onclose marked boundSession 1008 now st).sockets = st.sockets ∧
      (onclose marked boundSession 1008 now st).navigated = st.navigated ++ ["/login".toList] ∧
      (TeacherDashboard.onclose 1008 feed).reconnectDelays = feed.reconnectDelays ∧
      (TeacherDashboard.onclose 1008 feed).reconnectAttempts = feed.reconnectAttempts ∧
      (TeacherDashboard.onclose 1008 feed).navigated = feed.navigated ++ ["/login".toList] := by
  simp [onclose, TeacherDashboard.onclose]

/-! ## Theorems: the send operation -/

/-- C13. If the input text is empty, or no conversation is selected, or the
credential is missing, `handleSend` only raises an alert: it makes no call to
`addMessage`, `sendToAI` or `getConversations` and leaves the transcript, the
input text and the responding flag unchanged. -/
theorem handleSend_rejects_invalid (marked : Str → Str) (env : SendEnv) (st : SendState)
    (h : st.input = [] ∨ st.currentSession = [] ∨ st.token = []) :
    (handleSend marked env st).messages = st.messages ∧
      (handleSend marked env st).input = st.input ∧
      (handleSend marked env st).isAiResponding = st.isAiResponding ∧
      (handleSend marked env st).calls.filter Call.isNetworkCall =
        st.calls.filter Call.isNetworkCall ∧
      (handleSend marked env st).calls =
        st.calls ++
          [Call.alert (if st.currentSession = [] then noSessionAlert else noConnectionAlert)] := by
  simp [handleSend, h, Call.isNetworkCall]

theorem handleSend_rejects_invalid_witness :
    (({ hiState with currentSession := [] } : SendState).input = [] ∨
        ({ hiState with currentSession := [] } : SendState).currentSession = [] ∨
        ({ hiState with currentSession := [] } : SendState).token = []) ∧
      (handleSend id hiEnv { hiState with currentSession := [] }).messages = [] ∧
      (handleSend id hiEnv { hiState with currentSession := [] }).calls =
        [Call.alert noSessionAlert] :=
  ⟨by decide,
    (handleSend_rejects_invalid id hiEnv { hiState with currentSession := [] } (by decide)).1,
    (handleSend_rejects_invalid id hiEnv { hiState with currentSession := [] }
      (by decide)).2.2.2.2⟩

/-- C14. For every outcome of the collaborators and for both roles, once
`handleSend` has passed validation and finished, `isAiResponding` is false. -/
theorem handleSend_clears_responding (marked : Str → Str) (env : SendEnv) (st : SendState)
    (h : ¬ (st.input = [] ∨ st.currentSession = [] ∨ st.token = [])) :
    (handleSend marked env st).isAiResponding = false := by
  simp only [handleSend, if_neg h]

theorem handleSend_clears_responding_witness :
    ¬ (hiState.input = [] ∨ hiState.currentSession = [] ∨ hiState.token = []) ∧
      (handleSend id { hiEnv with responseOk := false }
        { hiState with isAiResponding := true }).isAiResponding = false :=
  ⟨by decide,
    handleSend_clears_responding id { hiEnv with responseOk := false }
      { hiState with isAiResponding := true } (by decide)⟩

/-- C12. If persisting the message fails, or (learner role with AI enabled) the
request to the AI endpoint fails, the response has a non-success status or a
stream read fails after some chunks, `handleSend` leaves the transcript as it
was, followed by the learner message when it was persisted and admitted, followed
by exactly one assistant-role apology entry; no entry carries the streamed text. -/
theorem handleSend_failure_appends_one_apology (marked : Str → Str) (env : SendEnv)
    (st : SendState) (hvalid : ¬ (st.input = [] ∨ st.currentSession = [] ∨ st.token = []))
    (hfail : env.persistOk = false ∨
      (st.mode = studentMode ∧ st.aiEnabled = true ∧
        (env.requestOk = false ∨ env.responseOk = false ∨ env.readOk = false))) :
    (handleSend marked env st).messages =
        (if env.persistOk then optimisticAdmit marked st.messages (sentMessage env st)
          else st.messages) ++
          [sendFailureEntry marked st.currentSession env.failureTime] ∧
      (sendFailureEntry marked st.currentSession env.failureTime).role = "assistant".toList ∧
      (sendFailureEntry marked st.currentSession env.failureTime).content = sendFailureText := by
  refine ⟨?_, rfl, rfl⟩
  simp only [handleSend, if_neg hvalid, sendBody]
  rcases hfail with hp | ⟨hm, ha, hr⟩
  · simp [hp]
  · cases hpo : env.persistOk with
    | false => simp
    | true =>
      have hnot : ¬ (env.requestOk = true ∧ env.responseOk = true ∧ env.readOk = true) := by
        rcases hr with h | h | h <;> simp [h]
      simp [hm, ha, hnot]

theorem handleSend_failure_appends_one_apology_witness :
    (¬ (hiState.input = [] ∨ hiState.currentSession = [] ∨ hiState.token = []) ∧
      (({ hiEnv with readOk := false } : SendEnv).persistOk = false ∨
        (hiState.mode = studentMode ∧ hiState.aiEnabled = true ∧
          (({ hiEnv with readOk := false } : SendEnv).requestOk = false ∨
            ({ hiEnv with readOk := false } : SendEnv).responseOk = false ∨
            ({ hiEnv with readOk := false } : SendEnv).readOk = false)))) ∧
      (handleSend id { hiEnv with readOk := false } hiState).messages =
        (if ({ hiEnv with readOk := false } : SendEnv).persistOk then
            optimisticAdmit id hiState.messages
              (sentMessage { hiEnv with readOk := false } hiState)
          else hiState.messages) ++
          [sendFailureEntry id hiState.currentSession
            ({ hiEnv with readOk := false } : SendEnv).failureTime] :=
  ⟨⟨by decide, by decide⟩,
    (handleSend_failure_appends_one_apology id { hiEnv with readOk := false } hiState
      (by decide) (by decide)).1⟩

theorem assembledContent_hiEnv : assembledContent hiEnv.chunks = "Hello there".toList := by
  decide

/-- C16. For the learner role with AI enabled, a send of non-empty text on a
transcript that has no entry with the identity of the new message, with the
history store accepting the message and the stream ending normally, leaves the
transcript followed by the learner message and then the assistant message whose
content is the assembled text, with the responding flag false; for the empty
transcript, the input `Hi` and a stream of `Hello there` and the completion
sentinel, the transcript is the `user` entry `Hi` followed by the `assistant`
entry `Hello there`. -/
theorem handleSend_success_transcript (marked : Str → Str) (env : SendEnv) (st : SendState)
    (hvalid : ¬ (st.input = [] ∨ st.currentSession = [] ∨ st.token = []))
    (hmode : st.mode = studentMode) (hai : st.aiEnabled = true)
    (hnew : st.messages.any (fun msg => sameIdentity msg (sentMessage env st)) = false)
    (hpersist : env.persistOk = true) (hrequest : env.requestOk = true)
    (hresponse : env.responseOk = true) (hread : env.readOk = true) :
    (handleSend marked env st).messages =
        st.messages ++
          [{ sentMessage env st with rendered := some (marked st.input) },
           assistantEntry marked st.currentSession (assembledContent env.chunks)
             env.aiTimestamp] ∧
      (sentMessage env st).role = "user".toList ∧
      (sentMessage env st).content = st.input ∧
      (handleSend marked env st).isAiResponding = false ∧
      (handleSend marked hiEnv hiState).messages.map (fun msg => (msg.role, msg.content)) =
        [("user".toList, "Hi".toList), ("assistant".toList, "Hello there".toList)] ∧
      (handleSend marked hiEnv hiState).isAiResponding = false := by
  refine ⟨?_, ?_, rfl, ?_, ?_, ?_⟩
  · have hopt : optimisticAdmit marked st.messages (sentMessage env st) =
        st.messages ++ [{ sentMessage env st with rendered := some (marked st.input) }] := by
      simp only [optimisticAdmit, hnew, Bool.false_eq_true, if_false]
      rfl
    simp [handleSend, hvalid, sendBody, hmode, hai, hpersist, hrequest, hresponse, hread, hopt]
  · simp [sentMessage, hmode]
  · simp only [handleSend, if_neg hvalid]
  · have hv : ¬ (hiState.input = [] ∨ hiState.currentSession = [] ∨ hiState.token = []) := by
      decide
    have hm : hiState.mode = studentMode := rfl
    simp [handleSend, hv, sendBody, hm, optimisticAdmit, assembledContent_hiEnv,
      assistantEntry, sentMessage]
    simp [hiState, hiEnv]
  · have hv : ¬ (hiState.input = [] ∨ hiState.currentSession = [] ∨ hiState.token = []) := by
      decide
    simp only [handleSend, if_neg hv]

theorem handleSend_success_transcript_witness :
    (¬ (hiState.input = [] ∨ hiState.currentSession = [] ∨ hiState.token = []) ∧
      hiState.mode = studentMode ∧ hiState.aiEnabled = true ∧
      hiState.messages.any (fun msg => sameIdentity msg (sentMessage hiEnv hiState)) = false ∧
      hiEnv.persistOk = true ∧ hiEnv.requestOk = true ∧ hiEnv.responseOk = true ∧
      hiEnv.readOk = true) ∧
      (handleSend id hiEnv hiState).messages =
        hiState.messages ++
          [{ sentMessage hiEnv hiState with rendered := some (id hiState.input) },
           assistantEntry id hiState.currentSession (assembledContent hiEnv.chunks)
             hiEnv.aiTimestamp] :=
  ⟨⟨by decide, by decide, by decide, by decide, by decide, by decide, by decide, by decide⟩,
    (handleSend_success_transcript id hiEnv hiState (by decide) (by decide) (by decide)
      (by decide) (by decide) (by decide) (by decide) (by decide)).1⟩

/-! ## Theorems: conversation change -/

theorem setReadyState_fields (i : Nat) (r : ReadyState) (st : ChatState) :
    (setReadyState i r st).messages = st.messages ∧
      (setReadyState i r st).isLoading = st.isLoading ∧
      (setReadyState i r st).fetches = st.fetches ∧
      (setReadyState i r st).ws = st.ws ∧
      (setReadyState i r st).mode = st.mode ∧
      (setReadyState i r st).debounce = st.debounce ∧
      (setReadyState i r st).sockets.length = st.sockets.length := by
  unfold setReadyState
  cases st.sockets[i]? with
  | none => simp
  | some sock => simp

theorem closeCurrent_fields (st : ChatState) :
    (closeCurrent st).messages = st.messages ∧
      (closeCurrent st).isLoading = st.isLoading ∧
      (closeCurrent st).fetches = st.fetches ∧
      (closeCurrent st).ws = st.ws ∧
      (closeCurrent st).mode = st.mode ∧
      (closeCurrent st).debounce = st.debounce ∧
      (closeCurrent st).sockets.length = st.sockets.length := by
  unfold closeCurrent
  split
  · simp
  · split
    · split
      · exact setReadyState_fields _ ReadyState.CLOSING st
      · simp
    · simp

theorem effectCleanup_fields (st : ChatState) :
    (effectCleanup st).messages = st.messages ∧
      (effectCleanup st).isLoading = st.isLoading ∧
      (effectCleanup st).fetches = st.fetches ∧
      (effectCleanup st).ws = st.ws ∧
      (effectCleanup st).mode = st.mode ∧
      (effectCleanup st).debounce = none ∧
      (effectCleanup st).sockets.length = st.sockets.length := by
  unfold effectCleanup
  by_cases hw : wsIsOpen { st with debounce := none } = true
  · simp only [hw, if_true]
    exact closeCurrent_fields { st with debounce := none }
  · simp [hw]

/-- C15, as stated, fails for the instructor role: along `teacherUnsetTrace` the
conversation becomes unset while the transcript holds an entry and the loading
flag is set, and both stay as they were. -/
theorem teacher_unset_keeps_transcript :
    (run id (mounted teacherMode "token".toList) teacherUnsetTrace).map
        (fun st => (st.currentSession, st.messages, st.isLoading)) =
      some ([], [displayRow id helloPayload], true) ∧
    [displayRow id helloPayload] ≠ [] := by
  decide

theorem set_of_getElem? {α : Type} (l : List α) (i : Nat) (x : α) (h : l[i]? = some x) :
    l.set i x = l := by
  induction l generalizing i with
  | nil => simp
  | cons y ys ih =>
    cases i with
    | zero =>
      simp only [List.getElem?_cons_zero, Option.some.injEq] at h
      simp [h]
    | succ j =>
      simp only [List.getElem?_cons_succ] at h
      simp [ih j h]

theorem setReadyState_refs (i : Nat) (r : ReadyState) (st : ChatState) :
    (setReadyState i r st).reconnectTimers = st.reconnectTimers ∧
      (setReadyState i r st).reconnectAttempts = st.reconnectAttempts ∧
      (setReadyState i r st).sessionRef = st.sessionRef ∧
      (setReadyState i r st).navigated = st.navigated ∧
      (setReadyState i r st).token = st.token ∧
      (setReadyState i r st).sockets.map (fun sock => sock.boundSession) =
        st.sockets.map (fun sock => sock.boundSession) := by
  unfold setReadyState
  cases hs : st.sockets[i]? with
  | none => simp
  | some sock =>
    refine ⟨rfl, rfl, rfl, rfl, rfl, ?_⟩
    simp only [List.map_set]
    exact set_of_getElem? _ i _ (by simp [List.getElem?_map, hs])

theorem closeCurrent_refs (st : ChatState) :
    (closeCurrent st).reconnectTimers = st.reconnectTimers ∧
      (closeCurrent st).reconnectAttempts = st.reconnectAttempts ∧
      (closeCurrent st).sessionRef = st.sessionRef ∧
      (closeCurrent st).navigated = st.navigated ∧
      (closeCurrent st).token = st.token ∧
      (closeCurrent st).sockets.map (fun sock => sock.boundSession) =
        st.sockets.map (fun sock => sock.boundSession) := by
  unfold closeCurrent
  split
  · simp
  · split
    · split
      · exact setReadyState_refs _ ReadyState.CLOSING st
      · simp
    · simp

theorem effectCleanup_refs (st : ChatState) :
    (effectCleanup st).reconnectTimers = st.reconnectTimers ∧
      (effectCleanup st).reconnectAttempts = st.reconnectAttempts ∧
      (effectCleanup st).sessionRef = st.sessionRef ∧
      (effectCleanup st).navigated = st.navigated ∧
      (effectCleanup st).token = st.token ∧
      (effectCleanup st).sockets.map (fun sock => sock.boundSession) =
        st.sockets.map (fun sock => sock.boundSession) := by
  unfold effectCleanup
  by_cases hw : wsIsOpen { st with debounce := none } = true
  · simp only [hw, if_true]
    exact closeCurrent_refs { st with debounce := none }
  · simp [hw]

/-- C15, amended. Whenever the current conversation becomes empty/unset, the
conversation-change step opens no channel session (no socket is created or
rebound and `ws` is kept), starts no timer (the reconnect timers are kept as they
were and no 500 ms timer is pending afterwards unless one was already pending
without a cleanup), and issues no history fetch; the attempt counter, the
session ref and the navigations are untouched; in the learner role it sets the
transcript to the empty sequence and the loading flag to false, and in any other
role it leaves the transcript and the loading flag as they were. -/
theorem conversation_unset (marked : Str → Str) (st : ChatState)
    (h : st.currentSession ≠ []) :
    ∃ st1, step marked st (Event.selectSession []) = some st1 ∧
      st1.currentSession = [] ∧
      (st.mode = studentMode → st1.messages = [] ∧ st1.isLoading = false) ∧
      (st.mode ≠ studentMode → st1.messages = st.messages ∧ st1.isLoading = st.isLoading) ∧
      st1.sockets.length = st.sockets.length ∧
      st1.ws = st.ws ∧
      st1.fetches = st.fetches ∧
      st1.debounce = (if st.hasCleanup then none else st.debounce) ∧
      st1.reconnectTimers = st.reconnectTimers ∧
      st1.reconnectAttempts = st.reconnectAttempts ∧
      st1.sessionRef = st.sessionRef ∧
      st1.navigated = st.navigated ∧
      st1.sockets.map (fun sock => sock.boundSession) =
        st.sockets.map (fun sock => sock.boundSession) ∧
      st1.mode = st.mode ∧
      st1.token = st.token ∧
      st1.hasCleanup = false := by
  have hne : ¬ ([] = st.currentSession) := fun hc => h hc.symm
  obtain ⟨c1, c2, c3, c4, c5, c6, c7⟩ := effectCleanup_fields st
  obtain ⟨d1, d2, d3, d4, d5, d6⟩ := effectCleanup_refs st
  have hstep : step marked st (Event.selectSession []) =
      some (conversationEffect
        { (if st.hasCleanup then effectCleanup st else st) with currentSession := [] }) := by
    simp only [step, if_neg hne]
  refine ⟨_, hstep, ?_⟩
  by_cases hc : st.hasCleanup = true <;> by_cases hm : st.mode = studentMode <;>
    simp [conversationEffect, hc, hm, c1, c2, c3, c4, c5, c6, c7, d1, d2, d3, d4, d5, d6]

theorem conversation_unset_witness :
    (selected studentMode "token".toList "s1".toList [helloPayload]).currentSession ≠ [] ∧
      ∃ st1, step id (selected studentMode "token".toList "s1".toList [helloPayload])
          (Event.selectSession []) = some st1 ∧
        st1.currentSession = [] ∧
        ((selected studentMode "token".toList "s1".toList [helloPayload]).mode = studentMode →
          st1.messages = [] ∧ st1.isLoading = false) ∧
        st1.reconnectTimers =
          (selected studentMode "token".toList "s1".toList [helloPayload]).reconnectTimers ∧
        st1.reconnectAttempts =
          (selected studentMode "token".toList "s1".toList [helloPayload]).reconnectAttempts :=
  ⟨by decide,
    (conversation_unset id (selected studentMode "token".toList "s1".toList [helloPayload])
      (by decide)).imp
      (fun _ hst => ⟨hst.1, hst.2.1, hst.2.2.1, hst.2.2.2.2.2.2.2.2.1,
        hst.2.2.2.2.2.2.2.2.2.1⟩)⟩

/-! ## Theorems: chunk boundaries -/

theorem appendFrame_nil (aiResponse : Str) : appendFrame aiResponse [] = aiResponse := by
  have h : dataMarker.isPrefixOf ([] : Str) = false := by decide
  simp [appendFrame, h]

theorem readChunk_nil (aiResponse : Str) : readChunk aiResponse [] = aiResponse := by
  simp [readChunk, split, appendFrame_nil]

theorem readChunk_append_of_boundary (aiResponse chunk rest : Str)
    (h : EndsAtFrameBoundary chunk) :
    readChunk aiResponse (chunk ++ rest) = readChunk (readChunk aiResponse chunk) rest := by
  obtain ⟨init, hinit⟩ := List.getLast?_eq_some_iff.1 h
  rw [readChunk, readChunk, readChunk, split_append_of_boundary chunk rest init hinit, hinit]
  simp only [List.foldl_append, List.foldl_cons, List.foldl_nil, appendFrame_nil]

theorem foldl_readChunk_flatten (chunks : List Str) (aiResponse : Str)
    (h : ∀ chunk ∈ chunks, EndsAtFrameBoundary chunk) :
    chunks.foldl readChunk aiResponse = readChunk aiResponse chunks.flatten := by
  induction chunks generalizing aiResponse with
  | nil => simp [readChunk_nil]
  | cons chunk chunks ih =>
    rw [List.foldl_cons, ih _ (fun c hc => h c (List.mem_cons_of_mem _ hc)), List.flatten_cons,
      readChunk_append_of_boundary _ _ _ (h chunk (by simp))]

/-- C17, as stated, fails: the chunk sequences `data: Hel`, `lo` + delimiter and
`data: Hello` + delimiter have the same concatenation, and the read loop
accumulates `Hel` for the first and `Hello` for the second. -/
theorem readLoop_depends_on_chunking :
    ["data: Hel".toList, "lo\n\n".toList].flatten = ["data: Hello\n\n".toList].flatten ∧
      readLoop ["data: Hel".toList, "lo\n\n".toList] = "Hel".toList ∧
      readLoop ["data: Hello\n\n".toList] = "Hello".toList ∧
      readLoop ["data: Hel".toList, "lo\n\n".toList] ≠ readLoop ["data: Hello\n\n".toList] := by
  decide

/-- C17, amended. For every two chunk sequences in which every chunk ends at a
frame boundary and whose concatenations are the same string, the stream read
loop of `handleSend` accumulates the same text, and the assembled content is the
same. -/
theorem readLoop_independent_of_aligned_chunking (chunks others : List Str)
    (hchunks : ∀ chunk ∈ chunks, EndsAtFrameBoundary chunk)
    (hothers : ∀ chunk ∈ others, EndsAtFrameBoundary chunk)
    (h : chunks.flatten = others.flatten) :
    readLoop chunks = readLoop others ∧ assembledContent chunks = assembledContent others := by
  have hr : readLoop chunks = readLoop others := by
    rw [readLoop, readLoop, foldl_readChunk_flatten chunks [] hchunks,
      foldl_readChunk_flatten others [] hothers, h]
  exact ⟨hr, by rw [assembledContent, assembledContent, hr]⟩

theorem readLoop_independent_of_aligned_chunking_witness :
    ((∀ chunk ∈ ["data: Xin\n\ndata: chao\n\n".toList], EndsAtFrameBoundary chunk) ∧
      (∀ chunk ∈ ["data: Xin\n\n".toList, "data: chao\n\n".toList],
        EndsAtFrameBoundary chunk) ∧
      ["data: Xin\n\ndata: chao\n\n".toList].flatten =
        ["data: Xin\n\n".toList, "data: chao\n\n".toList].flatten) ∧
      readLoop ["data: Xin\n\ndata: chao\n\n".toList] =
        readLoop ["data: Xin\n\n".toList, "data: chao\n\n".toList] :=
  ⟨⟨by simp [EndsAtFrameBoundary]; decide, by simp [EndsAtFrameBoundary]; decide, by decide⟩,
    (readLoop_independent_of_aligned_chunking _ _
      (by simp [EndsAtFrameBoundary]; decide) (by simp [EndsAtFrameBoundary]; decide)
      (by decide)).1⟩

end Chat
